import Mathlib

/-!
# Verification development for the `bulletproofs` crate

The repository's `src/lib.rs` is the crate root: it declares the modules
`transcript`, `generators`, `inner_product_proof`, `range_proof`,
`circuit_proof` and `errors`, re-exports their public items, and carries (as
a doc-test) the complete `KShuffleGadget` R1CS example.  The module files
themselves are not part of the available sources, so every definition below
that embeds one of those modules is modelled from the specification
(`spec.md`), as indicated by its doc comment; the `KShuffleGadget` /
`shuffle_cs` / `shuffle_helper` code, which appears verbatim in `lib.rs`
(lines 65–317), is embedded directly from that source.

Conventions of the embedding:
* the scalar field of the external `curve25519_dalek` group is `F := ZMod ℓ`
  with `ℓ` the prime order of the Ristretto group;
* commitments are modelled as perfectly binding: a commitment to a vector is
  represented by the vector itself (the hiding property and the group-level
  representation of commitments belong to the excluded external
  collaborators, per spec §1);
* the external hash-based transcript primitive is modelled by a concrete
  deterministic accumulator over the absorbed byte sequences.
-/

/-- Order of the Ristretto/curve25519 scalar field:
`2^252 + 27742317777372353535851937790883648493` (a prime). -/
def ellVal : Nat := 7237005577332262213973186563042994240857116359379907606001950938285454250989

/-- Scalars of the proof system (elements of the external group's scalar
field, spec §1 "Excluded as external collaborators"). -/
abbrev F : Type := ZMod ellVal

instance : NeZero ellVal := ⟨by decide⟩

/-! ## Transcript (spec §4.1) -/

/-- Modelled from the spec: the `transcript` module is absent from `src/`
(only `mod transcript;` remains in `lib.rs`).  Spec §3/§4.1: "an evolving
hash state seeded with a domain-separation label; mutated by every commit
and every challenge-extraction operation".  The state records the
domain-separation label and the ordered history of absorbed
(label, data) chunks. -/
structure Transcript where
  domain : List Nat
  history : List (List Nat × List Nat)
  deriving DecidableEq

/-- Modelled from the spec: fresh transcript seeded with a domain-separation
label (spec §3). -/
def Transcript.init (domain : List Nat) : Transcript :=
  ⟨domain, []⟩

/-- Modelled from the spec: `commit_bytes(label, data)` absorbs labeled
public data (spec §4.1); the hash state mutates monotonically. -/
def Transcript.commitBytes (t : Transcript) (label data : List Nat) : Transcript :=
  { t with history := t.history ++ [(label, data)] }

/-- Concrete accumulator step of the modelled hash state. -/
def mixByte (acc b : Nat) : Nat :=
  (acc * 131 + b + 7) % ellVal

/-- Accumulate a list of bytes into the modelled hash state. -/
def mixList (acc : Nat) (l : List Nat) : Nat :=
  l.foldl mixByte acc

/-- Modelled from the spec: digest of the whole transcript history; the
external hash primitive is replaced by a concrete deterministic
accumulator ("derived deterministically from all previously absorbed
data", spec §4.1). -/
def Transcript.digest (t : Transcript) : Nat :=
  t.history.foldl (fun acc chunk => mixList (mixList (mixByte acc 1) chunk.1) chunk.2)
    (mixList 5381 t.domain)

/-- Modelled from the spec: `challenge_scalar(label)` returns a field
element derived deterministically from all previously absorbed data, and
itself mutates the state (spec §4.1: "internal hash state mutates
monotonically; there is no rollback"). -/
def Transcript.challengeScalar (t : Transcript) (label : List Nat) : F × Transcript :=
  let t1 := t.commitBytes label []
  let c := t1.digest
  (((c : Nat) : F), t1.commitBytes [0] [c])

/-- An abstract transcript operation: absorb labeled data, or extract a
challenge scalar under a label (the two operations of spec §4.1). -/
inductive TranscriptOp where
  | commit (label data : List Nat)
  | challenge (label : List Nat)
  deriving DecidableEq

/-- Replay a sequence of transcript operations, collecting every extracted
challenge scalar in order. -/
def Transcript.runOps (t : Transcript) : List TranscriptOp → List F × Transcript
  | [] => ([], t)
  | TranscriptOp.commit label data :: rest =>
      (t.commitBytes label data).runOps rest
  | TranscriptOp.challenge label :: rest =>
      let (c, t1) := t.challengeScalar label
      let (cs, t2) := t1.runOps rest
      (c :: cs, t2)

/-! ## Vector algebra used by the range proof (spec §4.3/§4.4) -/

/-- Componentwise sum of two scalar vectors. -/
def vadd (u v : List F) : List F := List.zipWith (· + ·) u v

/-- Componentwise (Hadamard) product of two scalar vectors. -/
def hada (u v : List F) : List F := List.zipWith (· * ·) u v

/-- Scalar multiple of a vector. -/
def vsmul (c : F) (u : List F) : List F := u.map (c * ·)

/-- Inner product of two scalar vectors. -/
def ip (u v : List F) : F := (hada u v).sum

/-- Vector of successive powers `c^0, c^1, ..., c^(n-1)`. -/
def powVec (c : F) (n : Nat) : List F := (List.range n).map (c ^ ·)

/-! ## Generators (spec §4.2) -/

/-- Modelled from the spec: the `generators` module is absent from `src/`
(only `pub use generators::{BulletproofGens, BulletproofGensShare,
PedersenGens}` remains in `lib.rs`).  Spec §4.2: `BulletproofGens` "derives
up to a configurable number of bit-generators and capacity for up to a
configurable number of aggregated parties"; the group elements themselves
belong to the excluded external group, so the model keeps the two
provisioned capacities, which is what the capacity-error contract
(spec §4.2/§7) is about. -/
structure BulletproofGens where
  gensCapacity : Nat
  partyCapacity : Nat
  deriving DecidableEq

/-- Modelled from the spec: constructor taking the two provisioned
capacities (spec §4.2). -/
def BulletproofGens.new (gensCapacity partyCapacity : Nat) : BulletproofGens :=
  ⟨gensCapacity, partyCapacity⟩

/-! ## Errors (spec §7) -/

/-- Modelled from the spec: the `errors` module is absent from `src/` (only
`pub use errors::ProofError` remains in `lib.rs`).  Spec §7 "Proof errors":
general failures of a single proof — verification-equation failure, length
mismatches, the setup-time capacity misconfiguration, and the prover-side
fail-fast rejection of an out-of-range value (spec §4.4). -/
inductive ProofError where
  | verificationError
  | invalidGeneratorsLength
  | valueOutOfRange
  | wrongLength
  deriving DecidableEq

/-- Modelled from the spec: MPC error family, re-exported in `lib.rs` as
`rangeproof_mpc::MPCError`.  Spec §7: MPC errors "identify the failing
party/round explicitly". -/
inductive MPCError where
  | invalidGeneratorsLength
  | wrongNumProofShares
  | malformedProofShares (badShares : List Nat)
  deriving DecidableEq

/-! ## Range proof (spec §4.4) -/

/-- Modelled from the spec: the `range_proof` module is absent from `src/`
(only `pub use range_proof::RangeProof` remains in `lib.rs`).  Spec §3:
a range proof "aggregates one Pedersen commitment per party, one pair of
vector commitments (bit-decomposition commitments), challenge-dependent
polynomial commitments, and one embedded inner-product proof".  In the
perfectly-binding commitment model a vector commitment is carried as the
vector itself; `lVec`, `rVec` and `tHat` are the data of the embedded
inner-product argument (its closing vectors and the claimed inner
product). -/
structure RangeProof where
  aLCommit : List F
  aRCommit : List F
  sLCommit : List F
  sRCommit : List F
  T1 : F
  T2 : F
  tHat : F
  lVec : List F
  rVec : List F
  deriving DecidableEq

/-- Bit vector of the secret value: `aL i = (v >> i) & 1`, as scalars
(spec §4.4: "decompose v into n bits"). -/
def aLvec (n v : Nat) : List F :=
  (List.range n).map (fun i => (((v / 2 ^ i) % 2 : Nat) : F))

/-- Complement bit vector `aR = aL - 1` (componentwise), the second of the
"two vector commitments" of spec §4.4. -/
def aRvec (n v : Nat) : List F :=
  (aLvec n v).map (· - 1)

/-- Byte-level encoding of a scalar vector absorbed into the transcript and
used by proof serialization: length prefix followed by the canonical
representatives. -/
def encVec (xs : List F) : List Nat :=
  xs.length :: xs.map ZMod.val

/-- Transcript label constants (ASCII byte lists, standing for the labels
the implementation passes to the external transcript primitive). -/
def vLabel : List Nat := [86]
def aLabel : List Nat := [65]
def sLabel : List Nat := [83]
def yLabel : List Nat := [121]
def zLabel : List Nat := [122]
def tLabel : List Nat := [84]
def xLabel : List Nat := [120]

/-- Transcript state after absorbing the value commitment and the two
vector commitments, from which the first two challenges are drawn
(spec §4.4: "commit to the bit vector and its complement via two vector
commitments, derive two challenges from the transcript"). -/
def rpTranscript1 (t : Transcript) (v : Nat) (vBlinding : F)
    (aL aR sL sR : List F) : Transcript :=
  ((t.commitBytes vLabel [v, vBlinding.val]).commitBytes aLabel
      (encVec aL ++ encVec aR)).commitBytes sLabel (encVec sL ++ encVec sR)

/-- The `δ(y,z)` term of the range-proof polynomial identity:
`(z - z²)·⟨1, yⁿ⟩ - z³·(2ⁿ - 1)`. -/
def delta (n : Nat) (y z : F) : F :=
  (z - z ^ 2) * (powVec y n).sum - z ^ 3 * ((2 : F) ^ n - 1)

/-- Constant polynomial part `l₀ = aL - z·1` of the left vector
polynomial. -/
def lPoly0 (n v : Nat) (z : F) : List F :=
  (aLvec n v).map (· - z)

/-- Constant polynomial part `r₀ = yⁿ ∘ (aR + z·1) + z²·2ⁿ` of the right
vector polynomial. -/
def rPoly0 (n v : Nat) (y z : F) : List F :=
  vadd (hada (powVec y n) ((aRvec n v).map (· + z))) (vsmul (z ^ 2) (powVec 2 n))

/-- Degree-one part `r₁ = yⁿ ∘ sR` of the right vector polynomial. -/
def rPoly1 (n : Nat) (y : F) (sR : List F) : List F :=
  hada (powVec y n) sR

/-- Coefficient `t₁ = ⟨l₀,r₁⟩ + ⟨l₁,r₀⟩` of the inner-product
polynomial. -/
def t1Coef (n v : Nat) (y z : F) (sL sR : List F) : F :=
  ip (lPoly0 n v z) (rPoly1 n y sR) + ip sL (rPoly0 n v y z)

/-- Coefficient `t₂ = ⟨l₁,r₁⟩` of the inner-product polynomial. -/
def t2Coef (n : Nat) (y : F) (sL sR : List F) : F :=
  ip sL (rPoly1 n y sR)

/-- Left vector `l(x) = l₀ + x·sL` evaluated at the challenge `x`
(spec §4.4: "evaluate that polynomial at a further challenge point"). -/
def lAt (n v : Nat) (z x : F) (sL : List F) : List F :=
  vadd (lPoly0 n v z) (vsmul x sL)

/-- Right vector `r(x) = r₀ + x·(yⁿ ∘ sR)` evaluated at the challenge
`x`. -/
def rAt (n v : Nat) (y z x : F) (sR : List F) : List F :=
  vadd (rPoly0 n v y z) (vsmul x (rPoly1 n y sR))

/-- First range-proof challenge `y` (spec §4.4: "derive two challenges from
the transcript"). -/
def rpY (t : Transcript) (v : Nat) (vBlinding : F) (aL aR sL sR : List F) : F :=
  ((rpTranscript1 t v vBlinding aL aR sL sR).challengeScalar yLabel).1

/-- Transcript state after extracting the challenge `y`. -/
def rpT2 (t : Transcript) (v : Nat) (vBlinding : F) (aL aR sL sR : List F) : Transcript :=
  ((rpTranscript1 t v vBlinding aL aR sL sR).challengeScalar yLabel).2

/-- Second range-proof challenge `z`. -/
def rpZ (t : Transcript) (v : Nat) (vBlinding : F) (aL aR sL sR : List F) : F :=
  ((rpT2 t v vBlinding aL aR sL sR).challengeScalar zLabel).1

/-- Transcript state after extracting the challenge `z`. -/
def rpT3 (t : Transcript) (v : Nat) (vBlinding : F) (aL aR sL sR : List F) : Transcript :=
  ((rpT2 t v vBlinding aL aR sL sR).challengeScalar zLabel).2

/-- Evaluation-point challenge `x`, drawn after the polynomial commitments
`T1`, `T2` are absorbed (spec §4.4: "evaluate that polynomial at a further
challenge point"). -/
def rpX (t : Transcript) (v : Nat) (vBlinding : F) (aL aR sL sR : List F)
    (T1 T2 : F) : F :=
  (((rpT3 t v vBlinding aL aR sL sR).commitBytes tLabel
    [T1.val, T2.val]).challengeScalar xLabel).1

/-- Modelled from the spec: the core (always-succeeding) prover computation
of `RangeProof::prove_single` in the missing `range_proof` module, after
the input checks have passed.  It follows spec §4.4 step by step:
bit-decompose `v`, absorb the two vector commitments, draw the challenges
`y`, `z`, commit the polynomial coefficients, draw the evaluation challenge
`x`, and close with the inner-product data `l(x)`, `r(x)`,
`t̂ = ⟨l(x),r(x)⟩`. -/
def RangeProof.proveCore (t : Transcript) (n v : Nat) (vBlinding : F)
    (sL sR : List F) : RangeProof :=
  let aL := aLvec n v
  let aR := aRvec n v
  let y := rpY t v vBlinding aL aR sL sR
  let z := rpZ t v vBlinding aL aR sL sR
  let T1 := t1Coef n v y z sL sR
  let T2 := t2Coef n y sL sR
  let x := rpX t v vBlinding aL aR sL sR T1 T2
  { aLCommit := aL, aRCommit := aR, sLCommit := sL, sRCommit := sR,
    T1 := T1, T2 := T2, tHat := ip (lAt n v z x sL) (rAt n v y z x sR),
    lVec := lAt n v z x sL, rVec := rAt n v y z x sR }

/-- Modelled from the spec: `RangeProof::prove_single` of the missing
`range_proof` module.  Input checks, in order: the provisioned-capacity
check (spec §7: "a generator/capacity misconfiguration detected at setup
... must fail before any cryptographic work begins"), the fail-fast
range check on the secret value (spec §4.4: "the prover-side bit
decomposition is undefined/erroneous for out-of-range v (must fail fast
...)"), and the blinding-vector length check. -/
def RangeProof.prove (bp : BulletproofGens) (t : Transcript) (n v : Nat)
    (vBlinding : F) (sL sR : List F) : Except ProofError RangeProof :=
  if bp.gensCapacity < n then
    .error ProofError.invalidGeneratorsLength
  else if 2 ^ n ≤ v then
    .error ProofError.valueOutOfRange
  else if sL.length ≠ n ∨ sR.length ≠ n then
    .error ProofError.wrongLength
  else
    .ok (RangeProof.proveCore t n v vBlinding sL sR)

/-- Modelled from the spec: `RangeProof::verify_single` of the missing
`range_proof` module.  Spec §4.4: "Verification recomputes the same
challenges, checks the polynomial evaluation commitment algebraically, and
delegates to the inner-product verifier."  In the perfectly-binding model
the inner-product verifier's job — binding `l`, `r` to the absorbed vector
commitments and checking the claimed inner product — is carried out
directly on the committed vectors. -/
def RangeProof.verify (bp : BulletproofGens) (t : Transcript) (n v : Nat)
    (vBlinding : F) (proof : RangeProof) : Except ProofError Unit :=
  if bp.gensCapacity < n then
    .error ProofError.invalidGeneratorsLength
  else
    let y := rpY t v vBlinding proof.aLCommit proof.aRCommit proof.sLCommit proof.sRCommit
    let z := rpZ t v vBlinding proof.aLCommit proof.aRCommit proof.sLCommit proof.sRCommit
    let x := rpX t v vBlinding proof.aLCommit proof.aRCommit proof.sLCommit proof.sRCommit
      proof.T1 proof.T2
    if proof.aLCommit.length = n ∧ proof.aRCommit.length = n ∧
        proof.sLCommit.length = n ∧ proof.sRCommit.length = n ∧
        proof.lVec = vadd (proof.aLCommit.map (· - z)) (vsmul x proof.sLCommit) ∧
        proof.rVec = vadd (vadd (hada (powVec y n) (proof.aRCommit.map (· + z)))
          (vsmul (z ^ 2) (powVec 2 n))) (vsmul x (hada (powVec y n) proof.sRCommit)) ∧
        proof.tHat = ip proof.lVec proof.rVec ∧
        proof.tHat = z ^ 2 * (v : F) + delta n y z + x * proof.T1 + x ^ 2 * proof.T2 then
      .ok ()
    else
      .error ProofError.verificationError

/-! ## Helper lemmas: list and inner-product algebra -/

theorem zipWith_map_same {α β γ δ : Type} (h : β → γ → δ) (f : α → β) (g : α → γ) :
    ∀ l : List α, List.zipWith h (l.map f) (l.map g) = l.map (fun a => h (f a) (g a))
  | [] => rfl
  | a :: l => by simp [List.zipWith, zipWith_map_same h f g l]

theorem sum_map_add_distrib {α : Type} (f g : α → F) :
    ∀ l : List α, (l.map (fun a => f a + g a)).sum = (l.map f).sum + (l.map g).sum
  | [] => by simp
  | a :: l => by simp [sum_map_add_distrib f g l]; ring

theorem sum_map_sub_distrib {α : Type} (f g : α → F) :
    ∀ l : List α, (l.map (fun a => f a - g a)).sum = (l.map f).sum - (l.map g).sum
  | [] => by simp
  | a :: l => by simp [sum_map_sub_distrib f g l]; ring

theorem vadd_length (u v : List F) : (vadd u v).length = min u.length v.length := by
  simp [vadd]

theorem vsmul_length (c : F) (u : List F) : (vsmul c u).length = u.length := by
  simp [vsmul]

theorem hada_length (u v : List F) : (hada u v).length = min u.length v.length := by
  simp [hada]

theorem powVec_length (c : F) (n : Nat) : (powVec c n).length = n := by
  simp [powVec]

theorem ip_vadd_left : ∀ (u w v : List F), u.length = w.length →
    ip (vadd u w) v = ip u v + ip w v
  | [], [], v, _ => by simp [ip, vadd, hada]
  | [], _ :: _, _, h => by simp at h
  | _ :: _, [], _, h => by simp at h
  | a :: u, b :: w, [], _ => by simp [ip, vadd, hada]
  | a :: u, b :: w, c :: v, h => by
      have ih := ip_vadd_left u w v (by simpa using h)
      simp [ip, vadd, hada] at ih ⊢
      rw [ih]; ring

theorem ip_vadd_right : ∀ (u v w : List F), v.length = w.length →
    ip u (vadd v w) = ip u v + ip u w
  | u, [], [], _ => by simp [ip, vadd, hada]
  | _, [], _ :: _, h => by simp at h
  | _, _ :: _, [], h => by simp at h
  | [], b :: v, c :: w, _ => by simp [ip, vadd, hada]
  | a :: u, b :: v, c :: w, h => by
      have ih := ip_vadd_right u v w (by simpa using h)
      simp [ip, vadd, hada] at ih ⊢
      rw [ih]; ring

theorem ip_smul_left : ∀ (c : F) (u v : List F), ip (vsmul c u) v = c * ip u v
  | _, [], v => by simp [ip, vsmul, hada]
  | _, _ :: _, [] => by simp [ip, vsmul, hada]
  | c, a :: u, b :: v => by
      have ih := ip_smul_left c u v
      simp [ip, vsmul, hada] at ih ⊢
      rw [ih]; ring

theorem ip_smul_right : ∀ (c : F) (u v : List F), ip u (vsmul c v) = c * ip u v
  | _, [], v => by simp [ip, vsmul, hada]
  | _, _ :: _, [] => by simp [ip, vsmul, hada]
  | c, a :: u, b :: v => by
      have ih := ip_smul_right c u v
      simp [ip, vsmul, hada] at ih ⊢
      rw [ih]; ring

theorem ip_range_maps (f g : Nat → F) (n : Nat) :
    ip ((List.range n).map f) ((List.range n).map g) =
      ((List.range n).map (fun i => f i * g i)).sum := by
  rw [ip, hada, zipWith_map_same]

/-- Expansion of the inner product of the two degree-one vector polynomials
at the point `x` (spec §4.4's single polynomial identity, coefficient
form). -/
theorem ip_poly_expand (l0 l1 r0 r1 : List F) (x : F)
    (hl : l0.length = l1.length) (hr : r0.length = r1.length) :
    ip (vadd l0 (vsmul x l1)) (vadd r0 (vsmul x r1)) =
      ip l0 r0 + x * (ip l0 r1 + ip l1 r0) + x ^ 2 * ip l1 r1 := by
  rw [ip_vadd_left l0 (vsmul x l1) _ (by rw [vsmul_length]; exact hl),
    ip_vadd_right l0 r0 (vsmul x r1) (by rw [vsmul_length]; exact hr),
    ip_vadd_right (vsmul x l1) r0 (vsmul x r1) (by rw [vsmul_length]; exact hr),
    ip_smul_left, ip_smul_left, ip_smul_right, ip_smul_right]
  ring

/-- One step of base-2 positional decomposition of `mod`. -/
theorem mod_two_pow_succ (v n : Nat) :
    v % 2 ^ (n + 1) = v % 2 ^ n + 2 ^ n * (v / 2 ^ n % 2) := by
  rw [pow_succ, Nat.mod_mul]

/-- Bit recomposition at the `Nat` level: the first `n` bits of `v`
recompose to `v mod 2^n`. -/
theorem bits_recompose_nat (v : Nat) :
    ∀ n : Nat, ((List.range n).map (fun i => v / 2 ^ i % 2 * 2 ^ i)).sum = v % 2 ^ n
  | 0 => by simp [Nat.mod_one]
  | n + 1 => by
      rw [List.range_succ, List.map_append, List.sum_append,
        bits_recompose_nat v n, mod_two_pow_succ]
      simp [Nat.mul_comm]

/-- Bit recomposition over the scalar field, for in-range values
(spec §4.4: "the bits reconstruct v"). -/
theorem bits_recompose (n v : Nat) (hv : v < 2 ^ n) :
    ((List.range n).map (fun i => (((v / 2 ^ i) % 2 : Nat) : F) * (2 : F) ^ i)).sum
      = (v : F) := by
  have h := bits_recompose_nat v n
  rw [Nat.mod_eq_of_lt hv] at h
  calc ((List.range n).map (fun i => (((v / 2 ^ i) % 2 : Nat) : F) * (2 : F) ^ i)).sum
      = ((List.range n).map (fun i => ((v / 2 ^ i % 2 * 2 ^ i : Nat) : F))).sum := by
        refine congrArg List.sum (List.map_congr_left fun i _ => ?_)
        push_cast; ring
    _ = (((List.range n).map (fun i => v / 2 ^ i % 2 * 2 ^ i)).sum : Nat) := by
        rw [Nat.cast_list_sum, List.map_map]; rfl
    _ = (v : F) := by rw [h]

/-- Sum of the first `n` powers of two over the scalar field. -/
theorem sum_powVec_two (n : Nat) : (powVec 2 n).sum = (2 : F) ^ n - 1 := by
  induction n with
  | zero => simp [powVec]
  | succ n ih =>
      rw [powVec, List.range_succ, List.map_append, List.sum_append, ← powVec, ih]
      simp [pow_succ]; ring

theorem aLvec_length (n v : Nat) : (aLvec n v).length = n := by simp [aLvec]

theorem aRvec_length (n v : Nat) : (aRvec n v).length = n := by simp [aRvec, aLvec]

theorem lPoly0_length (n v : Nat) (z : F) : (lPoly0 n v z).length = n := by
  simp [lPoly0, aLvec]

theorem rPoly0_length (n v : Nat) (y z : F) : (rPoly0 n v y z).length = n := by
  simp [rPoly0, vadd_length, hada_length, vsmul_length, powVec_length, aRvec_length]

theorem rPoly1_length (n : Nat) (y : F) (sR : List F) (hsR : sR.length = n) :
    (rPoly1 n y sR).length = n := by
  simp [rPoly1, hada_length, powVec_length, hsR]

/-- The constant coefficient of the range-proof polynomial: for an in-range
value, `⟨l₀, r₀⟩ = z²·v + δ(y,z)` — the heart of spec §4.4's "polynomial
identity whose satisfaction is equivalent to: every bit is 0 or 1 and the
bits reconstruct v". -/
theorem ip_l0_r0 (n v : Nat) (hv : v < 2 ^ n) (y z : F) :
    ip (lPoly0 n v z) (rPoly0 n v y z) = z ^ 2 * (v : F) + delta n y z := by
  have hbit : ∀ i : Nat,
      (((v / 2 ^ i) % 2 : Nat) : F) * ((((v / 2 ^ i) % 2 : Nat) : F) - 1) = 0 := by
    intro i
    rcases Nat.mod_two_eq_zero_or_one (v / 2 ^ i) with h | h <;> rw [h] <;> push_cast <;> ring
  have hl : lPoly0 n v z =
      (List.range n).map (fun i => (((v / 2 ^ i) % 2 : Nat) : F) - z) := by
    simp [lPoly0, aLvec, List.map_map]
  have hr : rPoly0 n v y z = (List.range n).map
      (fun i => y ^ i * ((((v / 2 ^ i) % 2 : Nat) : F) - 1 + z) + z ^ 2 * (2 : F) ^ i) := by
    simp only [rPoly0, aRvec, aLvec, powVec, List.map_map, vsmul, vadd, hada]
    rw [zipWith_map_same, zipWith_map_same]
    simp [Function.comp]
  rw [hl, hr, ip_range_maps]
  have hpt : (List.range n).map (fun i => ((((v / 2 ^ i) % 2 : Nat) : F) - z) *
        (y ^ i * ((((v / 2 ^ i) % 2 : Nat) : F) - 1 + z) + z ^ 2 * (2 : F) ^ i)) =
      (List.range n).map (fun i => ((z - z ^ 2) * y ^ i +
        z ^ 2 * ((((v / 2 ^ i) % 2 : Nat) : F) * (2 : F) ^ i)) - z ^ 3 * (2 : F) ^ i) := by
    refine List.map_congr_left fun i _ => ?_
    have hb := hbit i
    linear_combination y ^ i * hb
  rw [hpt, sum_map_sub_distrib, sum_map_add_distrib, List.sum_map_mul_left,
    List.sum_map_mul_left, List.sum_map_mul_left, bits_recompose n v hv]
  have h2 : ((List.range n).map fun i => (2 : F) ^ i).sum = (2 : F) ^ n - 1 :=
    sum_powVec_two n
  have hy : delta n y z =
      (z - z ^ 2) * ((List.range n).map fun i => y ^ i).sum - z ^ 3 * ((2 : F) ^ n - 1) := by
    rw [delta, powVec]
  rw [h2, hy]
  ring

/-- Value of the range-proof polynomial at the evaluation challenge:
`⟨l(x), r(x)⟩ = z²·v + δ(y,z) + x·t₁ + x²·t₂`. -/
theorem tHat_eq (n v : Nat) (hv : v < 2 ^ n) (y z x : F) (sL sR : List F)
    (hsL : sL.length = n) (hsR : sR.length = n) :
    ip (lAt n v z x sL) (rAt n v y z x sR) =
      z ^ 2 * (v : F) + delta n y z + x * t1Coef n v y z sL sR +
        x ^ 2 * t2Coef n y sL sR := by
  rw [lAt, rAt, ip_poly_expand (lPoly0 n v z) sL (rPoly0 n v y z) (rPoly1 n y sR) x
    (by rw [lPoly0_length, hsL]) (by rw [rPoly0_length, rPoly1_length n y sR hsR]),
    ip_l0_r0 n v hv y z, t1Coef, t2Coef]

/-! ## MPC dealer (spec §4.5) -/

/-- Modelled from the spec: dealer-side aggregation state of the missing
`range_proof::dealer` module (re-exported in `lib.rs` under
`rangeproof_mpc`).  It records the bit-width `n` and the number of parties
`m` the aggregation was set up for (spec §4.5). -/
structure DealerState where
  n : Nat
  m : Nat
  deriving DecidableEq

/-- Modelled from the spec: dealer construction; the capacity
misconfiguration (more bits or more parties than the generator set
provisions) is "detected at setup" and "must fail before any cryptographic
work begins" (spec §7). -/
def Dealer.new (bp : BulletproofGens) (n m : Nat) : Except MPCError DealerState :=
  if bp.gensCapacity < n ∨ bp.partyCapacity < m then
    .error MPCError.invalidGeneratorsLength
  else
    .ok ⟨n, m⟩

/-- Modelled from the spec: one party's proof share — "scalars for the
final inner-product relation" (spec §4.5 step 4). -/
structure ProofShare where
  lVec : List F
  rVec : List F
  tHat : F
  deriving DecidableEq

instance : Inhabited ProofShare := ⟨⟨[], [], 0⟩⟩

/-- Modelled from the spec: independent validation of a single party's
share against that party's own public data (spec §4.5 step 5: "dealer
validates each party's proof share independently against that party's own
public commitment"). -/
def shareAudit (n : Nat) (s : ProofShare) : Bool :=
  s.lVec.length == n && s.rVec.length == n && ip s.lVec s.rVec == s.tHat

/-- Modelled from the spec: the single aggregate inner-product proof the
dealer assembles by summing all shares (spec §4.5 step 5). -/
structure AggregatedProof where
  tHat : F
  lVec : List F
  rVec : List F
  deriving DecidableEq

/-- Modelled from the spec: dealer finalization (spec §4.5 step 5 and its
failure semantics): every party's share is audited independently; if any
audit fails the protocol aborts with an MPC error listing exactly the
failing parties, and no aggregate proof is emitted; only if all audits
pass are the shares combined. -/
def DealerState.receiveShares (st : DealerState) (shares : List ProofShare) :
    Except MPCError AggregatedProof :=
  if shares.length ≠ st.m then
    .error MPCError.wrongNumProofShares
  else
    let bad := (List.range st.m).filter (fun j => !shareAudit st.n (shares.getD j default))
    if bad = [] then
      .ok ⟨(shares.map ProofShare.tHat).sum,
        (shares.map ProofShare.lVec).flatten, (shares.map ProofShare.rVec).flatten⟩
    else
      .error (MPCError.malformedProofShares bad)

/-! ## Serialization (spec §6 "Proof serialization") -/

/-- Modelled from the spec: proof serialization is the "ordered
concatenation of all committed group elements and closing scalars in a
fixed, documented order" (spec §6); each vector is emitted with a length
prefix and each scalar as its canonical representative. -/
def RangeProof.toBytes (p : RangeProof) : List Nat :=
  encVec p.aLCommit ++ encVec p.aRCommit ++ encVec p.sLCommit ++ encVec p.sRCommit ++
    [p.T1.val, p.T2.val, p.tHat.val] ++ encVec p.lVec ++ encVec p.rVec

/-- Decode one length-prefixed scalar vector from the front of a byte
stream. -/
def decVec : List Nat → Option (List F × List Nat)
  | [] => none
  | k :: rest =>
      if k ≤ rest.length then
        some ((rest.take k).map (fun b => ((b : Nat) : F)), rest.drop k)
      else
        none

/-- Decode one scalar from the front of a byte stream. -/
def decScalar : List Nat → Option (F × List Nat)
  | [] => none
  | b :: rest => some (((b : Nat) : F), rest)

/-- Modelled from the spec: proof deserialization, the inverse direction of
spec §6's byte format; rejects malformed or over-long byte strings. -/
def RangeProof.fromBytes (bytes : List Nat) : Option RangeProof :=
  match decVec bytes with
  | none => none
  | some (aL, r1) =>
    match decVec r1 with
    | none => none
    | some (aR, r2) =>
      match decVec r2 with
      | none => none
      | some (sL, r3) =>
        match decVec r3 with
        | none => none
        | some (sR, r4) =>
          match decScalar r4 with
          | none => none
          | some (T1, r5) =>
            match decScalar r5 with
            | none => none
            | some (T2, r6) =>
              match decScalar r6 with
              | none => none
              | some (tHat, r7) =>
                match decVec r7 with
                | none => none
                | some (l, r8) =>
                  match decVec r8 with
                  | none => none
                  | some (r, r9) =>
                    if r9 = [] then
                      some ⟨aL, aR, sL, sR, T1, T2, tHat, l, r⟩
                    else
                      none

/-! ## Helper lemmas: dealer audit and serialization -/

theorem filter_range_isolate (p : Nat → Bool) :
    ∀ m k : Nat, k < m → (∀ j, j < m → (p j = true ↔ j = k)) →
      (List.range m).filter p = [k]
  | 0, k, hk, _ => absurd hk (Nat.not_lt_zero k)
  | m + 1, k, hk, hp => by
      rw [List.range_succ, List.filter_append]
      rcases Nat.lt_or_ge k m with hkm | hkm
      · rw [filter_range_isolate p m k hkm
          (fun j hj => hp j (Nat.lt_succ_of_lt hj))]
        have hm : p m = false := by
          rcases Bool.eq_false_or_eq_true (p m) with h | h
          · exact absurd ((hp m (Nat.lt_succ_self m)).mp h) (by omega)
          · exact h
        simp [List.filter, hm]
      · have hkm' : k = m := by omega
        subst hkm'
        have hnil : (List.range k).filter p = [] := by
          rw [List.filter_eq_nil_iff]
          intro a ha
          have halt : a < k := List.mem_range.mp ha
          intro hpa
          exact absurd ((hp a (Nat.lt_succ_of_lt halt)).mp hpa) (by omega)
        have hm : p k = true := (hp k (Nat.lt_succ_self k)).mpr rfl
        simp [hnil, List.filter, hm]

theorem decVec_encVec (xs : List F) (rest : List Nat) :
    decVec (encVec xs ++ rest) = some (xs, rest) := by
  have hlen : (xs.map ZMod.val).length = xs.length := by simp
  rw [encVec, List.cons_append, decVec]
  rw [if_pos (by simp [List.length_append])]
  have htake : ((xs.map ZMod.val) ++ rest).take xs.length = xs.map ZMod.val := by
    rw [← hlen, List.take_left]
  have hdrop : ((xs.map ZMod.val) ++ rest).drop xs.length = rest := by
    rw [← hlen, List.drop_left]
  rw [htake, hdrop, List.map_map]
  have hid : xs.map ((fun b => ((b : Nat) : F)) ∘ ZMod.val) = xs := by
    refine List.map_congr_left (fun a _ => ?_) |>.trans (List.map_id xs)
    exact ZMod.natCast_rightInverse a
  rw [hid]

theorem decScalar_cons (c : F) (rest : List Nat) :
    decScalar (c.val :: rest) = some (c, rest) := by
  rw [decScalar, ZMod.natCast_rightInverse c]

theorem decVec_encVec_nil (xs : List F) : decVec (encVec xs) = some (xs, []) := by
  have h := decVec_encVec xs []
  rwa [List.append_nil] at h

/-- Deserialization inverts serialization on every proof value. -/
theorem fromBytes_toBytes (p : RangeProof) : RangeProof.fromBytes p.toBytes = some p := by
  obtain ⟨aL, aR, sL, sR, T1, T2, tHat, l, r⟩ := p
  simp only [RangeProof.toBytes, RangeProof.fromBytes, List.append_assoc, List.cons_append,
    List.nil_append, decVec_encVec, decVec_encVec_nil, decScalar_cons, if_true]

/-! ## Claim theorems -/

/-- C9: two independent transcript instances with the same domain-separation
label, fed identical labeled data in identical order, produce identical
challenge sequences at every extraction point. -/
theorem claim_C9_transcript_determinism (label : List Nat) (ops : List TranscriptOp)
    (t1 t2 : Transcript) (h1 : t1 = Transcript.init label)
    (h2 : t2 = Transcript.init label) :
    (t1.runOps ops).1 = (t2.runOps ops).1 := by
  rw [h1, h2]

/-- Witness for C9 at a concrete label and operation sequence. -/
theorem claim_C9_transcript_determinism_witness :
    ((Transcript.init [116]).runOps [TranscriptOp.commit [1] [2, 3],
        TranscriptOp.challenge [4], TranscriptOp.commit [5] [6],
        TranscriptOp.challenge [4]]).1 =
      ((Transcript.init [116]).runOps [TranscriptOp.commit [1] [2, 3],
        TranscriptOp.challenge [4], TranscriptOp.commit [5] [6],
        TranscriptOp.challenge [4]]).1 :=
  claim_C9_transcript_determinism [116]
    [TranscriptOp.commit [1] [2, 3], TranscriptOp.challenge [4],
      TranscriptOp.commit [5] [6], TranscriptOp.challenge [4]]
    (Transcript.init [116]) (Transcript.init [116]) rfl rfl

/-- C1: for every provisioned bit-width `n` and every value `v ∈ [0, 2^n)`,
the range proof constructed for `v` with a given generator set succeeds and
verifies successfully against that same generator set. -/
theorem claim_C1_range_proof_completeness (bp : BulletproofGens) (t : Transcript)
    (n v : Nat) (vBlinding : F) (sL sR : List F) (hn : n ≤ bp.gensCapacity)
    (hv : v < 2 ^ n) (hsL : sL.length = n) (hsR : sR.length = n) :
    RangeProof.prove bp t n v vBlinding sL sR =
        .ok (RangeProof.proveCore t n v vBlinding sL sR) ∧
      RangeProof.verify bp t n v vBlinding
        (RangeProof.proveCore t n v vBlinding sL sR) = .ok () := by
  have hcap : ¬ bp.gensCapacity < n := by omega
  refine ⟨?_, ?_⟩
  · simp only [RangeProof.prove]
    rw [if_neg hcap, if_neg (by omega), if_neg (by simp [hsL, hsR])]
  · simp only [RangeProof.verify, RangeProof.proveCore]
    rw [if_neg hcap]
    exact if_pos ⟨aLvec_length n v, aRvec_length n v, hsL, hsR, rfl, rfl, trivial,
      tHat_eq n v hv
        (rpY t v vBlinding (aLvec n v) (aRvec n v) sL sR)
        (rpZ t v vBlinding (aLvec n v) (aRvec n v) sL sR)
        (rpX t v vBlinding (aLvec n v) (aRvec n v) sL sR
          (t1Coef n v (rpY t v vBlinding (aLvec n v) (aRvec n v) sL sR)
            (rpZ t v vBlinding (aLvec n v) (aRvec n v) sL sR) sL sR)
          (t2Coef n (rpY t v vBlinding (aLvec n v) (aRvec n v) sL sR) sL sR))
        sL sR hsL hsR⟩

/-- Witness for C1: an 8-bit proof for the value 123 is produced and
verifies. -/
theorem claim_C1_range_proof_completeness_witness :
    RangeProof.prove (BulletproofGens.new 64 1) (Transcript.init [98, 112]) 8 123 7
        (List.replicate 8 3) (List.replicate 8 5) =
      .ok (RangeProof.proveCore (Transcript.init [98, 112]) 8 123 7
        (List.replicate 8 3) (List.replicate 8 5)) ∧
      RangeProof.verify (BulletproofGens.new 64 1) (Transcript.init [98, 112]) 8 123 7
        (RangeProof.proveCore (Transcript.init [98, 112]) 8 123 7
          (List.replicate 8 3) (List.replicate 8 5)) = .ok () :=
  claim_C1_range_proof_completeness (BulletproofGens.new 64 1)
    (Transcript.init [98, 112]) 8 123 7 (List.replicate 8 3) (List.replicate 8 5)
    (by decide) (by decide) (by decide) (by decide)

/-- C3: invoking the prover on a value outside `[0, 2^n)` fails fast with an
error; no proof object is produced at all, so no proof misrepresenting the
value can be returned. -/
theorem claim_C3_prover_fails_fast (bp : BulletproofGens) (t : Transcript)
    (n v : Nat) (vBlinding : F) (sL sR : List F) (hn : n ≤ bp.gensCapacity)
    (hv : 2 ^ n ≤ v) :
    RangeProof.prove bp t n v vBlinding sL sR = .error ProofError.valueOutOfRange := by
  simp only [RangeProof.prove]
  rw [if_neg (by omega), if_pos hv]

/-- Witness for C3 at the boundary value `2^8 = 256` for bit-width 8. -/
theorem claim_C3_prover_fails_fast_witness :
    RangeProof.prove (BulletproofGens.new 64 1) (Transcript.init [98, 112]) 8 256 7
        (List.replicate 8 3) (List.replicate 8 5) =
      .error ProofError.valueOutOfRange :=
  claim_C3_prover_fails_fast (BulletproofGens.new 64 1) (Transcript.init [98, 112])
    8 256 7 (List.replicate 8 3) (List.replicate 8 5) (by decide) (by decide)

/-- C6: requesting more bit-generators than the generator set provisions
makes the prover fail with the capacity error before any cryptographic
work, and requesting more bit-generators or more aggregation parties than
provisioned — in particular more parties alone, under a provisioned
bit-width — makes dealer setup fail with the MPC capacity error; neither
request is satisfied by truncation. -/
theorem claim_C6_capacity_error (bp : BulletproofGens) (t : Transcript)
    (n m v : Nat) (vBlinding : F) (sL sR : List F) :
    (bp.gensCapacity < n →
        RangeProof.prove bp t n v vBlinding sL sR =
          .error ProofError.invalidGeneratorsLength) ∧
      (bp.gensCapacity < n ∨ bp.partyCapacity < m →
        Dealer.new bp n m = .error MPCError.invalidGeneratorsLength) := by
  constructor
  · intro hn
    simp only [RangeProof.prove]
    rw [if_pos hn]
  · intro h
    simp only [Dealer.new]
    rw [if_pos h]

/-- Witness for C6: from a set provisioned for 4 bits and 1 party, the
prover is asked for 8 bits, and the dealer for 2 parties at the
provisioned bit-width 4 (so the party capacity alone is exceeded). -/
theorem claim_C6_capacity_error_witness :
    RangeProof.prove (BulletproofGens.new 4 1) (Transcript.init [98, 112]) 8 3 7 [] [] =
        .error ProofError.invalidGeneratorsLength ∧
      Dealer.new (BulletproofGens.new 4 1) 4 2 =
        .error MPCError.invalidGeneratorsLength :=
  ⟨(claim_C6_capacity_error (BulletproofGens.new 4 1) (Transcript.init [98, 112])
      8 2 3 7 [] []).1 (by decide),
    (claim_C6_capacity_error (BulletproofGens.new 4 1) (Transcript.init [98, 112])
      4 2 3 7 [] []).2 (Or.inr (by decide))⟩

/-- C4: when exactly party `k`'s proof share fails the dealer's independent
audit and every other party's share passes, finalization aborts with the
MPC error naming party `k` alone (other parties do not appear in the error
detail), and no aggregate proof is emitted. -/
theorem claim_C4_mpc_fault_attribution (st : DealerState) (shares : List ProofShare)
    (k : Nat) (hlen : shares.length = st.m) (hk : k < st.m)
    (hgood : ∀ j, j < st.m → j ≠ k → shareAudit st.n (shares.getD j default) = true)
    (hbad : shareAudit st.n (shares.getD k default) = false) :
    st.receiveShares shares = .error (MPCError.malformedProofShares [k]) := by
  have hfilter : (List.range st.m).filter
      (fun j => !shareAudit st.n (shares.getD j default)) = [k] := by
    refine filter_range_isolate _ st.m k hk (fun j hj => ?_)
    constructor
    · intro hpj
      by_contra hne
      have hgj := hgood j hj hne
      rw [hgj] at hpj
      simp at hpj
    · intro hje
      subst hje
      rw [hbad]
      rfl
  simp only [DealerState.receiveShares]
  rw [if_neg (by omega), hfilter, if_neg (by simp)]

/-- Witness for C4: two parties, the second share corrupted (wrong claimed
inner product); the dealer reports exactly party 1. -/
theorem claim_C4_mpc_fault_attribution_witness :
    DealerState.receiveShares ⟨1, 2⟩ [⟨[1], [1], 1⟩, ⟨[1], [1], 5⟩] =
      .error (MPCError.malformedProofShares [1]) :=
  claim_C4_mpc_fault_attribution ⟨1, 2⟩ [⟨[1], [1], 1⟩, ⟨[1], [1], 5⟩] 1
    (by decide) (by decide) (by decide) (by decide)

/-- C5: serializing the deserialization of a serialized proof reproduces
the bytes exactly: `toBytes (fromBytes (toBytes p)) = toBytes p` for every
proof value, in particular every validly constructed one. -/
theorem claim_C5_serialization_roundtrip (p : RangeProof) :
    (RangeProof.fromBytes p.toBytes).map RangeProof.toBytes = some p.toBytes := by
  rw [fromBytes_toBytes]
  rfl

/-! ## R1CS layer (spec §4.6) and the `KShuffleGadget` example of `lib.rs` -/

instance {e a : Type} [DecidableEq e] [DecidableEq a] : DecidableEq (Except e a) := fun x y =>
  match x, y with
  | .ok u, .ok v =>
      if h : u = v then isTrue (by rw [h]) else isFalse (by intro hc; cases hc; exact h rfl)
  | .error u, .error v =>
      if h : u = v then isTrue (by rw [h]) else isFalse (by intro hc; cases hc; exact h rfl)
  | .ok _, .error _ => isFalse (by intro hc; cases hc)
  | .error _, .ok _ => isFalse (by intro hc; cases hc)

/-- Modelled from the spec: the R1CS error family re-exported in `lib.rs` as
`r1cs::R1CSError`; `InvalidR1CSConstruction` appears literally in the
`lib.rs` doc example, and spec §7 requires construction errors to be
"distinct from proof-verification failure". -/
inductive R1CSError where
  | invalidR1CSConstruction
  | missingAssignment
  | verificationError
  deriving DecidableEq

/-- Modelled from the spec: an R1CS variable is "an opaque handle referring
to either a committed input, an internal multiplier-gate wire, or the
constant 1" (spec §3); `Variable::One()` appears literally in the `lib.rs`
doc example. -/
inductive Variable where
  | committed (i : Nat)
  | mulLeft (i : Nat)
  | mulRight (i : Nat)
  | mulOut (i : Nat)
  | one
  deriving DecidableEq

instance : Inhabited Variable := ⟨Variable.one⟩

/-- Modelled from the spec: a prover-side assignment is "a concrete scalar,
or missing" (spec §3); re-exported in `lib.rs` as `r1cs::Assignment`. -/
abbrev Assignment : Type := Option F

/-- Product of two assignments; "missing" propagates. -/
def Assignment.mul : Assignment → Assignment → Assignment
  | some a, some b => some (a * b)
  | _, _ => none

/-- Sum of an assignment and a scalar; "missing" propagates. -/
def Assignment.addScalar : Assignment → F → Assignment
  | some a, s => some (a + s)
  | none, _ => none

/-- Difference of an assignment and a scalar; "missing" propagates. -/
def Assignment.subScalar : Assignment → F → Assignment
  | some a, s => some (a - s)
  | none, _ => none

/-- Modelled from the spec: the constraint-system state behind the shared
`ConstraintSystem` interface of `lib.rs` / spec §4.6.  Both roles are "two
concrete implementations of one capability interface" (spec §9); here one
state type carries the transcript, the provisioned generator capacity, the
commitments to high-level values (binding model: value/blinding pairs), the
three multiplier wire columns (verifier-side entries are all "missing"),
and the accumulated linear-combination constraints. -/
structure CSState where
  transcript : Transcript
  gensCapacity : Nat
  commitments : List (F × F)
  aL : List Assignment
  aR : List Assignment
  aO : List Assignment
  constraints : List (List (Variable × F))
  deriving DecidableEq

/-- Modelled from the spec: the `challenge_scalar` capability of the
constraint system (spec §4.6), delegating to the transcript. -/
def CSState.challengeScalar (cs : CSState) (label : List Nat) : F × CSState :=
  ((cs.transcript.challengeScalar label).1,
    { cs with transcript := (cs.transcript.challengeScalar label).2 })

/-- Modelled from the spec: the "allocate a multiplier gate" capability
(spec §4.6); appends one row to the three wire columns and returns the
three wire handles. -/
def CSState.assignMultiplier (cs : CSState) (l r o : Assignment) :
    (Except R1CSError (Variable × Variable × Variable)) × CSState :=
  (.ok (Variable.mulLeft cs.aL.length, Variable.mulRight cs.aL.length,
      Variable.mulOut cs.aL.length),
    { cs with aL := cs.aL ++ [l], aR := cs.aR ++ [r], aO := cs.aO ++ [o] })

/-- Modelled from the spec: the "allocate an uncommitted variable pair"
capability (spec §4.6), implemented via one multiplier gate whose output is
the product of the two assignments. -/
def CSState.assignUncommitted (cs : CSState) (a b : Assignment) :
    (Except R1CSError (Variable × Variable)) × CSState :=
  match cs.assignMultiplier a b (Assignment.mul a b) with
  | (.error e, cs1) => (.error e, cs1)
  | (.ok (l, r, _), cs1) => (.ok (l, r), cs1)

/-- Modelled from the spec: the "add a linear-combination constraint"
capability (spec §4.6). -/
def CSState.addConstraint (cs : CSState) (lc : List (Variable × F)) : CSState :=
  { cs with constraints := cs.constraints ++ [lc] }

/-- Modelled from the spec: `PedersenGens` — "two fixed, independent base
points" of the external group (spec §4.2); the points themselves live in
the excluded external group, so the model carries no data. -/
structure PedersenGens where
  deriving DecidableEq

/-- The `PedersenGens::default()` of the `lib.rs` doc example. -/
def PedersenGens.default : PedersenGens := ⟨⟩

/-- Byte encoding of the high-level commitments absorbed by both roles at
construction time (spec §4.6: commitment variables are fixed "into the
transcript before any challenge is drawn"). -/
def commitmentsBytes (commitments : List (F × F)) : List Nat :=
  commitments.map (fun c => c.1.val) ++ commitments.map (fun c => c.2.val)

/-- Modelled from the spec: `ProverCS::new` of the missing
`circuit_proof::prover` module — commits the high-level values, absorbs
the commitments into the transcript before any challenge is drawn
(spec §4.6), and returns the state, the commitment variables and the
commitments. -/
def ProverCS.new (bp : BulletproofGens) (_pc : PedersenGens) (t : Transcript)
    (v vBlinding : List F) : CSState × List Variable × List (F × F) :=
  let commitments := List.zipWith (fun a b => (a, b)) v vBlinding
  (⟨t.commitBytes vLabel (commitmentsBytes commitments), bp.gensCapacity,
      commitments, [], [], [], []⟩,
    (List.range v.length).map Variable.committed, commitments)

/-- Modelled from the spec: `VerifierCS::new` of the missing
`circuit_proof::verifier` module — absorbs the received commitments
identically to the prover and returns the state and the commitment
variables. -/
def VerifierCS.new (bp : BulletproofGens) (_pc : PedersenGens) (t : Transcript)
    (commitments : List (F × F)) : CSState × List Variable :=
  (⟨t.commitBytes vLabel (commitmentsBytes commitments), bp.gensCapacity,
      commitments, [], [], [], []⟩,
    (List.range commitments.length).map Variable.committed)

/-- Modelled from the spec: the R1CS proof re-exported in `lib.rs` as
`r1cs::R1CSProof`; in the binding model it carries the three multiplier
wire vectors (really: commitments to them plus the embedded inner-product
argument, spec §4.6). -/
structure R1CSProof where
  aL : List F
  aR : List F
  aO : List F
  deriving DecidableEq

/-- Modelled from the spec: `ProverCS::prove` — every allocated wire must
carry a concrete assignment ("missing" values cannot be proven); the
finalized wire vectors form the proof (binding model). -/
def CSState.prove (cs : CSState) : Except R1CSError R1CSProof :=
  match cs.aL.mapM id, cs.aR.mapM id, cs.aO.mapM id with
  | some l, some r, some o => .ok ⟨l, r, o⟩
  | _, _, _ => .error R1CSError.missingAssignment

/-- Resolve a variable handle against the proof's wire values and the
verifier's commitments (binding model); unallocated references fail. -/
def evalVar (cs : CSState) (proof : R1CSProof) : Variable → Option F
  | Variable.one => some 1
  | Variable.committed i => (cs.commitments.get? i).map (fun c => c.1)
  | Variable.mulLeft i => proof.aL.get? i
  | Variable.mulRight i => proof.aR.get? i
  | Variable.mulOut i => proof.aO.get? i

/-- Evaluate a linear combination of variables under the proof's wire
values. -/
def evalLC (cs : CSState) (proof : R1CSProof) : List (Variable × F) → Option F
  | [] => some 0
  | (v, c) :: rest =>
      match evalVar cs proof v, evalLC cs proof rest with
      | some a, some s => some (c * a + s)
      | _, _ => none

/-- Modelled from the spec: `VerifierCS::verify` — checks that the proof
matches the circuit shape, that every multiplication gate holds, and that
every linear-combination constraint evaluates to zero (binding model of the
inner-product reduction of spec §4.6); a failed check is the
proof-verification failure, distinct from construction errors (spec §7). -/
def CSState.verify (cs : CSState) (proof : R1CSProof) : Except R1CSError Unit :=
  if proof.aL.length == cs.aL.length && proof.aR.length == cs.aR.length &&
      proof.aO.length == cs.aO.length &&
      (List.zipWith (fun p o => p == o)
        (List.zipWith (· * ·) proof.aL proof.aR) proof.aO).all id &&
      cs.constraints.all (fun lc => evalLC cs proof lc == some 0) then
    .ok ()
  else
    .error R1CSError.verificationError

/-- ASCII bytes of the label `"k-shuffle challenge"` passed to
`cs.challenge_scalar` in `lib.rs` line 74. -/
def kShuffleChallengeLabel : List Nat :=
  [107, 45, 115, 104, 117, 102, 102, 108, 101, 32, 99, 104, 97, 108, 108, 101, 110, 103, 101]

/-- ASCII bytes of the domain label `"ShuffleTest"` used for both
transcripts in `lib.rs` lines 246 and 271. -/
def shuffleTestLabel : List Nat :=
  [83, 104, 117, 102, 102, 108, 101, 84, 101, 115, 116]

/-- Embedded from `src/lib.rs` (doc example, lines 164–198):
`KShuffleGadget::multiplier_helper` — allocates one multiplier gate and
ties its left and right wires to the given variables (the left tie carries
the `-z` offset only for the last multiplier). -/
def KShuffleGadget.multiplierHelper (cs : CSState) (negZ : F)
    (left right out : Assignment) (leftVar rightVar : Variable)
    (isLastMul : Bool) : (Except R1CSError Variable) × CSState :=
  let one : F := 1
  let varOne := Variable.one
  match cs.assignMultiplier left right out with
  | (.error e, cs1) => (.error e, cs1)
  | (.ok (leftMulVar, rightMulVar, outMulVar), cs1) =>
    let cs2 :=
      if isLastMul then
        cs1.addConstraint [(leftMulVar, -one), (varOne, negZ), (leftVar, one)]
      else
        cs1.addConstraint [(leftMulVar, -one), (leftVar, one)]
    let cs3 := cs2.addConstraint [(rightMulVar, -one), (varOne, negZ), (rightVar, one)]
    (.ok outMulVar, cs3)

/-- Embedded from `src/lib.rs` (doc example, lines 103–118 and 137–152):
the `for i in (0..k - 2).rev()` multiplier chain shared by the x and y
sides of `KShuffleGadget::fill_cs`; `idxs` is the descending index list,
and the two accumulators mirror `mul*_out` and `mul*_out_var_prev`. -/
def KShuffleGadget.mulLoop (negZ : F) (pairs : List (Variable × Assignment)) :
    List Nat → CSState → Assignment → Variable →
      (Except R1CSError Variable) × CSState
  | [], cs, _mulOut, prevVar => (.ok prevVar, cs)
  | i :: rest, cs, mulOut, prevVar =>
    let left := mulOut
    let right := Assignment.addScalar (pairs.getD i default).2 negZ
    let out := Assignment.mul left right
    match KShuffleGadget.multiplierHelper cs negZ left right out prevVar
        (pairs.getD i default).1 false with
    | (.error e, cs1) => (.error e, cs1)
    | (.ok v, cs1) => KShuffleGadget.mulLoop negZ pairs rest cs1 out v

/-- Embedded from `src/lib.rs` (doc example, lines 68–162):
`KShuffleGadget::fill_cs`.  Note the operation order, visible in the
source: the challenge scalar is extracted from the constraint system
first (line 74); the `x.len() != y.len()` validation happens only
afterwards (line 77), so the error return leaves the already-advanced
state behind. -/
def KShuffleGadget.fillCS (cs0 : CSState) (x y : List (Variable × Assignment)) :
    (Except R1CSError Unit) × CSState :=
  let one : F := 1
  let z := (cs0.challengeScalar kShuffleChallengeLabel).1
  let cs := (cs0.challengeScalar kShuffleChallengeLabel).2
  let negZ := -z
  if x.length ≠ y.length then
    (.error R1CSError.invalidR1CSConstruction, cs)
  else
    let k := x.length
    if k = 1 then
      (.ok (), cs.addConstraint [((x.getD 0 default).1, -one), ((y.getD 0 default).1, one)])
    else
      let mulxLeft := Assignment.addScalar (x.getD (k - 1) default).2 negZ
      let mulxRight := Assignment.addScalar (x.getD (k - 2) default).2 negZ
      let mulxOut := Assignment.mul mulxLeft mulxRight
      match KShuffleGadget.multiplierHelper cs negZ mulxLeft mulxRight mulxOut
          (x.getD (k - 1) default).1 (x.getD (k - 2) default).1 true with
      | (.error e, cs1) => (.error e, cs1)
      | (.ok mulxOutVarPrev, cs1) =>
        match KShuffleGadget.mulLoop negZ x ((List.range (k - 2)).reverse) cs1
            mulxOut mulxOutVarPrev with
        | (.error e, cs2) => (.error e, cs2)
        | (.ok mulxFinal, cs2) =>
          let mulyLeft := Assignment.subScalar (y.getD (k - 1) default).2 z
          let mulyRight := Assignment.subScalar (y.getD (k - 2) default).2 z
          let mulyOut := Assignment.mul mulyLeft mulyRight
          match KShuffleGadget.multiplierHelper cs2 negZ mulyLeft mulyRight mulyOut
              (y.getD (k - 1) default).1 (y.getD (k - 2) default).1 true with
          | (.error e, cs3) => (.error e, cs3)
          | (.ok mulyOutVarPrev, cs3) =>
            match KShuffleGadget.mulLoop negZ y ((List.range (k - 2)).reverse) cs3
                mulyOut mulyOutVarPrev with
            | (.error e, cs4) => (.error e, cs4)
            | (.ok mulyFinal, cs4) =>
              (.ok (), cs4.addConstraint [(mulyFinal, -one), (mulxFinal, one)])

/-- Embedded from `src/lib.rs` (doc example, lines 296–307): the
`for i in 0..k / 2` allocation loop of `shuffle_cs`, allocating low-level
variable pairs for inputs and outputs and collecting the
(variable, assignment) pairs. -/
def shuffleAllocLoop (input output : List Assignment) :
    List Nat → CSState → List (Variable × Assignment) → List (Variable × Assignment) →
      (Except R1CSError (List (Variable × Assignment) ×
        List (Variable × Assignment))) × CSState
  | [], cs, inPairs, outPairs => (.ok (inPairs, outPairs), cs)
  | i :: rest, cs, inPairs, outPairs =>
    let idxL := i * 2
    let idxR := idxL + 1
    match cs.assignUncommitted (input.getD idxL default) (input.getD idxR default) with
    | (.error e, cs1) => (.error e, cs1)
    | (.ok (inVarLeft, inVarRight), cs1) =>
      let inPairs1 := inPairs ++ [(inVarLeft, input.getD idxL default),
        (inVarRight, input.getD idxR default)]
      match cs1.assignUncommitted (output.getD idxL default) (output.getD idxR default) with
      | (.error e, cs2) => (.error e, cs2)
      | (.ok (outVarLeft, outVarRight), cs2) =>
        let outPairs1 := outPairs ++ [(outVarLeft, output.getD idxL default),
          (outVarRight, output.getD idxR default)]
        shuffleAllocLoop input output rest cs2 inPairs1 outPairs1

/-- Embedded from `src/lib.rs` (doc example, lines 283–317): `shuffle_cs` —
validates the input/output lengths first (lines 288–290), allocates
low-level variable pairs (with a zero-padded odd tail, lines 308–314),
then delegates to `KShuffleGadget::fill_cs`. -/
def shuffleCS (cs : CSState) (input output : List Assignment) :
    (Except R1CSError Unit) × CSState :=
  if input.length ≠ output.length then
    (.error R1CSError.invalidR1CSConstruction, cs)
  else
    let k := input.length
    match shuffleAllocLoop input output (List.range (k / 2)) cs [] [] with
    | (.error e, cs1) => (.error e, cs1)
    | (.ok (inPairs, outPairs), cs1) =>
      if k % 2 = 1 then
        let idx := k - 1
        match cs1.assignUncommitted (input.getD idx default) (some 0) with
        | (.error e, cs2) => (.error e, cs2)
        | (.ok (inVarLeft, _), cs2) =>
          let inPairs1 := inPairs ++ [(inVarLeft, input.getD idx default)]
          match cs2.assignUncommitted (output.getD idx default) (some 0) with
          | (.error e, cs3) => (.error e, cs3)
          | (.ok (outVarLeft, _), cs3) =>
            let outPairs1 := outPairs ++ [(outVarLeft, output.getD idx default)]
            KShuffleGadget.fillCS cs3 inPairs1 outPairs1
      else
        KShuffleGadget.fillCS cs1 inPairs outPairs

/-- Embedded from `src/lib.rs` (doc example, lines 241–268): the prover
scope of `shuffle_helper` — build the prover constraint system with empty
`v` and `v_blinding`, add the shuffle constraints over concrete
assignments, and produce the proof together with the commitment list. -/
def shuffleProver (input output : List Nat) :
    Except R1CSError (R1CSProof × List (F × F)) :=
  let bpGens := BulletproofGens.new 128 1
  let proverNew := ProverCS.new bpGens PedersenGens.default
    (Transcript.init shuffleTestLabel) [] []
  let inAssignments := input.map (fun i => (some ((i : Nat) : F) : Assignment))
  let outAssignments := output.map (fun i => (some ((i : Nat) : F) : Assignment))
  match shuffleCS proverNew.1 inAssignments outAssignments with
  | (.error e, _) => .error e
  | (.ok _, cs1) =>
    match cs1.prove with
    | .error e => .error e
    | .ok proof => .ok (proof, proverNew.2.2)

/-- Embedded from `src/lib.rs` (doc example, lines 235–281):
`shuffle_helper` — run the prover scope, then rebuild the same circuit on
the verifier side (with all assignments missing) and verify the proof. -/
def shuffleHelper (input output : List Nat) : Except R1CSError Unit :=
  match shuffleProver input output with
  | .error e => .error e
  | .ok (proof, commitments) =>
    let bpGens := BulletproofGens.new 128 1
    let verifierNew := VerifierCS.new bpGens PedersenGens.default
      (Transcript.init shuffleTestLabel) commitments
    let inAssignments := input.map (fun _ => (none : Assignment))
    let outAssignments := output.map (fun _ => (none : Assignment))
    match shuffleCS verifierNew.1 inAssignments outAssignments with
    | (.error e, _) => .error e
    | (.ok _, cs1) => cs1.verify proof

/-- C10: `KShuffleGadget::fill_cs` is not atomic on error — it extracts the
challenge scalar before validating the input lengths, so on mismatched
lengths it returns `InvalidR1CSConstruction` while leaving the
constraint-system/transcript state advanced by the challenge extraction,
with no rollback. -/
theorem claim_C10_fill_cs_not_atomic (cs : CSState) (x y : List (Variable × Assignment))
    (h : x.length ≠ y.length) :
    KShuffleGadget.fillCS cs x y =
        (.error R1CSError.invalidR1CSConstruction,
          (cs.challengeScalar kShuffleChallengeLabel).2) ∧
      (cs.challengeScalar kShuffleChallengeLabel).2 ≠ cs := by
  constructor
  · simp only [KShuffleGadget.fillCS]
    rw [if_pos h]
  · intro heq
    have h1 : ((cs.challengeScalar kShuffleChallengeLabel).2).transcript.history.length =
        cs.transcript.history.length + 2 := by
      simp [CSState.challengeScalar, Transcript.challengeScalar, Transcript.commitBytes]
    rw [heq] at h1
    omega

/-- Witness for C10 on a fresh constraint system with a 1-vs-0 length
mismatch. -/
theorem claim_C10_fill_cs_not_atomic_witness :
    KShuffleGadget.fillCS ⟨Transcript.init [99], 4, [], [], [], [], []⟩
        [(Variable.one, some 3)] [] =
        (.error R1CSError.invalidR1CSConstruction,
          ((⟨Transcript.init [99], 4, [], [], [], [], []⟩ : CSState).challengeScalar
            kShuffleChallengeLabel).2) ∧
      ((⟨Transcript.init [99], 4, [], [], [], [], []⟩ : CSState).challengeScalar
        kShuffleChallengeLabel).2 ≠ ⟨Transcript.init [99], 4, [], [], [], [], []⟩ :=
  claim_C10_fill_cs_not_atomic ⟨Transcript.init [99], 4, [], [], [], [], []⟩
    [(Variable.one, some 3)] [] (by decide)

/-- C7: malformed R1CS construction — a shuffle gadget given input and
output vectors of mismatched lengths — yields `InvalidR1CSConstruction` at
circuit-building time (so the whole helper aborts before any proof is
attempted), and that error is distinct from the proof-verification
failure. -/
theorem claim_C7_malformed_construction (input output : List Nat)
    (h : input.length ≠ output.length) :
    shuffleHelper input output = .error R1CSError.invalidR1CSConstruction ∧
      (R1CSError.invalidR1CSConstruction ≠ R1CSError.verificationError) := by
  have hp : shuffleProver input output = .error R1CSError.invalidR1CSConstruction := by
    simp only [shuffleProver, shuffleCS, List.length_map]
    rw [if_pos h]
  refine ⟨?_, by decide⟩
  simp only [shuffleHelper, hp]

/-- Witness for C7 with one input and two outputs. -/
theorem claim_C7_malformed_construction_witness :
    shuffleHelper [3] [6, 10] = .error R1CSError.invalidR1CSConstruction ∧
      (R1CSError.invalidR1CSConstruction ≠ R1CSError.verificationError) :=
  claim_C7_malformed_construction [3] [6, 10] (by decide)

set_option maxRecDepth 100000 in
/-- C8: for the shuffle gadget with input multiset `{3,6,10}`: output
`{6,10,3}` verifies; output `{30,6,10}` still lets proof construction
succeed, but verification of the resulting proof fails. -/
theorem claim_C8_shuffle_scenarios :
    shuffleHelper [3, 6, 10] [6, 10, 3] = .ok () ∧
      (shuffleProver [3, 6, 10] [30, 6, 10]).isOk = true ∧
      shuffleHelper [3, 6, 10] [30, 6, 10] = .error R1CSError.verificationError := by
  refine ⟨by decide, by decide, by decide⟩
